import Mathlib

/-!
Verification development for the NoSQL/NewSQL benchmark orchestration engine.

The repository under verification is a TypeScript application.  The core under
study is `lib/runTest.ts` (workload generator, the three backend adapters and
the orchestrating `runTest`), `lib/dbConnectors.ts` (connection registry), and
the three API handlers (`pages/api/test/all.ts`, the streamed full-matrix
handler and the repeated-run handler).

The embedding below is a shallow one:

* Database clients and the wall clock are modelled by an `Env` record of
  response oracles: every network call a test function makes is replaced by
  a lookup into `Env`, returning `Except String α` (`.error msg` models a
  rejected promise carrying `msg` as its `message`).
* `try { ... } catch (err) { ... }` is modelled by running the body in the
  `Except String` monad and pattern matching on the outcome.
* `Promise.all` over a list of requests is modelled by `awaitAll`, which
  returns the list of values or the first rejection (JS resolves the race by
  real time; the embedding deterministically picks the leftmost rejection).
* JS wall-clock readings (`Date.now()`) are the integers `Env.tStart` (taken
  on entry of a test function) and `Env.tRet` (taken at whichever return
  point fires); monotonicity of the clock is an explicit hypothesis where a
  theorem needs it.
* Driver row values (`row.get('age')`, `row.age`, ...) are modelled by
  `JsVal` (a JS value that is a number, a string, or null), so that strict
  equality, truthiness and the numeric coercions of the source are faithful.
  Only the row columns the source ever reads (`id`, `name`, `age`) are
  modelled.
-/

/-- `DatabaseType` from `lib/types.ts`. -/
inductive DatabaseType where
  | cassandra
  | mongo
  | cockroach
deriving DecidableEq

/-- `OperationType` from `lib/types.ts`. -/
inductive OperationType where
  | read
  | write
  | update
deriving DecidableEq

/-- A JS value as it appears in a driver row column. -/
inductive JsVal where
  | null
  | num (n : Int)
  | str (s : String)
deriving DecidableEq

/-- JS truthiness of a `JsVal` (`null`, `0` and `""` are falsy). -/
def JsVal.truthy : JsVal → Bool
  | .null => false
  | .num n => n != 0
  | .str s => s != ""

/-- `String(v)` coercion of a `JsVal`. -/
def JsVal.toStr : JsVal → String
  | .null => "null"
  | .num n => toString n
  | .str s => s

/-- `Number(v)` coercion of a `JsVal`; `none` models `NaN`. -/
def JsVal.toNumber : JsVal → Option Int
  | .null => some 0
  | .num n => some n
  | .str _ => none

/-- `parseInt(s, 10)`: optional sign then a leading run of decimal digits;
`none` models `NaN`.  (Leading whitespace is trimmed; the `0x` prefix and
`+` sign of full JS `parseInt` are not modelled, the source only ever feeds
it database `age` columns.) -/
def jsParseInt (s : String) : Option Int :=
  let t := s.toList.dropWhile (fun c => c = ' ')
  let neg := t.head? == some '-'
  let u := if neg then t.drop 1 else t
  let digits := u.takeWhile Char.isDigit
  if digits.isEmpty then none
  else
    let n : Nat := digits.foldl (fun acc c => acc * 10 + (c.toNat - 48)) 0
    some (if neg then -(n : Int) else (n : Int))

/-- `s.includes(sub)` on two JS strings. -/
def jsIncludesStr (s sub : String) : Bool :=
  decide (sub.toList <:+: s.toList)

/-- A driver row, restricted to the columns the source reads. -/
structure Row where
  id : JsVal
  name : JsVal
  age : JsVal
deriving DecidableEq

/-- `TestRecord` from `lib/types.ts`. -/
structure TestRecord where
  id : String
  user_id : Nat
  name : String
  email : String
  age : Nat
  created_at : Int
  data : String
deriving DecidableEq

/-- `TestResult` from `lib/types.ts`.  `error := none` models an absent
`error` field. -/
structure TestResult where
  database : String
  operation : OperationType
  timeTaken : Int
  recordCount : Nat
  dataIntegrity : Bool
  error : Option String
deriving DecidableEq

/-- `generateTestData(count)` from `lib/runTest.ts`.  `uuid i` is the value
`uuidv4()` returned on its `i`-th invocation and `now` the timestamp
`new Date()` produced, both supplied by the environment. -/
def generateTestData (uuid : Nat → String) (now : Int) (count : Nat) : List TestRecord :=
  (List.range count).map (fun i =>
    { id := uuid i
      user_id := i + 1
      name := "User " ++ toString (i + 1)
      email := "user" ++ toString (i + 1) ++ "@example.com"
      age := 20 + (i % 50)
      created_at := now
      data := "Test data for user " ++ toString (i + 1) })

/-- Claim C6: `generate(n)` returns exactly `n` records, with pairwise
distinct identifiers (given that the uuid source never repeats within the
run), `user_id` values exactly `1..n` in order, and `age` values equal to
`20 + (index mod 50)`, hence in `[20, 69]`. -/
theorem generateTestData_spec (uuid : Nat → String) (now : Int) (count : Nat)
    (hinj : ∀ i j : Fin count, uuid i.val = uuid j.val → i = j) :
    (generateTestData uuid now count).length = count ∧
    ((generateTestData uuid now count).map (·.id)).Nodup ∧
    (generateTestData uuid now count).map (·.user_id) = List.range' 1 count ∧
    (generateTestData uuid now count).map (·.age)
      = (List.range count).map (fun i => 20 + (i % 50)) ∧
    (∀ r ∈ generateTestData uuid now count, 20 ≤ r.age ∧ r.age ≤ 69) := by
  refine ⟨?_, ?_, ?_, ?_, ?_⟩
  · simp [generateTestData]
  · have h : (generateTestData uuid now count).map (·.id)
        = (List.range count).map uuid := by
      simp [generateTestData]
    rw [h]
    refine List.Nodup.map_on ?_ (List.nodup_range count)
    intro x hx y hy hxy
    have hx' : x < count := List.mem_range.mp hx
    have hy' : y < count := List.mem_range.mp hy
    exact congrArg Fin.val (hinj ⟨x, hx'⟩ ⟨y, hy'⟩ hxy)
  · have h : (generateTestData uuid now count).map (·.user_id)
        = (List.range count).map (fun i => i + 1) := by
      simp [generateTestData]
    rw [h, List.range'_eq_map_range]
    exact List.map_congr_left (fun i _ => Nat.add_comm i 1)
  · simp [generateTestData]
  · intro r hr
    simp only [generateTestData, List.mem_map, List.mem_range] at hr
    obtain ⟨i, _, rfl⟩ := hr
    have h50 : i % 50 < 50 := Nat.mod_lt i (by omega)
    refine ⟨Nat.le_add_right 20 (i % 50), ?_⟩
    show 20 + (i % 50) ≤ 69
    omega

/-- Witness for C6 at `count = 2` with an explicitly injective uuid source. -/
theorem generateTestData_spec_witness :
    (generateTestData (fun i => if i = 0 then "a" else "b") 0 2).length = 2 ∧
    ((generateTestData (fun i => if i = 0 then "a" else "b") 0 2).map (·.user_id))
      = List.range' 1 2 ∧
    ((generateTestData (fun i => if i = 0 then "a" else "b") 0 2).map (·.id)).Nodup := by
  have h := generateTestData_spec (fun i => if i = 0 then "a" else "b") 0 2
    (by decide)
  exact ⟨h.1, h.2.2.1, h.2.1⟩

/-- The fixed empty-dataset error message from `lib/runTest.ts`. -/
def noRecordsMsg : String := "No records found in database. Please run Write test first."

/-- Message of the runtime `TypeError` raised when JS dereferences
`undefined` (indexing past the end of an array and then accessing a
property, or handing `undefined` to a driver that rejects it).  The exact
wording is engine-specific; no claim depends on it. -/
def jsUndefinedAccessMsg : String := "Cannot read properties of undefined"

/-- `Promise.all` over a list of already-started requests: the list of all
values, or the first rejection.  (JS settles the race by real time; the
embedding deterministically reports the leftmost rejection.) -/
def awaitAll {α : Type} : List (Except String α) → Except String (List α)
  | [] => .ok []
  | x :: xs => do
    let v ← x
    let vs ← awaitAll xs
    .ok (v :: vs)

/-- One step of the `for (let i = 0; i < n; i += 100)` slicing loop of the
write adapters; the fuel argument (instantiated with the list length, an
upper bound on the iteration count since every step consumes at least one
element) makes the recursion structural. -/
def chunkGo {α : Type} : Nat → List α → List (List α)
  | _, [] => []
  | 0, _ :: _ => []
  | fuel + 1, x :: xs => ((x :: xs).take 100) :: chunkGo fuel ((x :: xs).drop 100)

/-- The batches-of-100 decomposition performed by `slice(i, i + batchSize)`
with `batchSize = 100` in the Cassandra and CockroachDB write adapters. -/
def chunk100 {α : Type} (l : List α) : List (List α) := chunkGo l.length l

/-- Dispatch groups of the Cassandra write adapter: one group per 100-slice. -/
def cassandraWriteBatches (records : List TestRecord) : List (List TestRecord) :=
  chunk100 records

/-- Dispatch groups of the CockroachDB write adapter: one group per 100-slice. -/
def cockroachWriteBatches (records : List TestRecord) : List (List TestRecord) :=
  chunk100 records

/-- Dispatch groups of the MongoDB write adapter: the single
`insertMany(mongoRecords, { ordered: false })` call sends the whole record
list as one bulk request — there is no 100-chunking in this adapter. -/
def mongoWriteBatches (records : List TestRecord) : List (List TestRecord) :=
  [records]

/-- Sequential execution of the write chunks: each chunk's inserts are
dispatched together and awaited as a unit (`Promise.all`) before the next
chunk starts. -/
def seqChunks (f : TestRecord → Except String Unit) :
    List (List TestRecord) → Except String Unit
  | [] => .ok ()
  | c :: cs => do
    let _ ← awaitAll (c.map f)
    seqChunks f cs

/-- The response oracles standing for the database drivers and the wall
clock.  `connect*Res` is the outcome of the `connect*` call of
`lib/dbConnectors.ts`; `*Init` tells whether the corresponding
`get*` accessor returns a handle; the remaining fields give each
query's rows or its rejection message, keyed by the query argument. -/
structure Env where
  tStart : Int
  tRet : Int
  connectCassandraRes : Except String Unit
  connectMongoRes : Except String Unit
  connectCockroachRes : Except String Unit
  cassandraInit : Bool
  mongoInit : Bool
  cockroachInit : Bool
  uuid : Nat → String
  now : Int
  cassDiscover : Nat → Except String (List Row)
  cassRead : String → Except String (List Row)
  cassInsert : TestRecord → Except String Unit
  cassUpdate : String → Except String Unit
  mongoFind : Nat → Except String (List Row)
  mongoFindOne : JsVal → Except String (Option Row)
  mongoInsertMany : List TestRecord → Except String Unit
  mongoUpdateOne : JsVal → Except String Unit
  cockDiscover : Nat → Except String (List Row)
  cockRead : JsVal → Except String (List Row)
  cockInsert : TestRecord → Except String Unit
  cockUpdate : JsVal → Except String Unit

/-- The integrity computation of the Cassandra read adapter: false when some
read found no row, otherwise a truthiness check of `id` and `name` on
`results[0].rows[0]` (which raises a `TypeError` when `results` is empty). -/
def cassandraReadVerify (results : List (List Row)) : Except String Bool :=
  if results.any (fun r => r.length == 0) then pure false
  else
    match results.head? with
    | none => throw jsUndefinedAccessMsg
    | some rows0 =>
      match rows0.head? with
      | none => pure false
      | some first => pure (first.id.truthy && first.name.truthy)

/-- The integrity computation of the Cassandra update adapter: the re-read
row exists and its `age` column is strictly (`!==`) the number `99`.  The
updated name is not inspected and no numeric coercion is applied. -/
def cassandraUpdateVerify (rows : List Row) : Bool :=
  match rows.head? with
  | none => false
  | some row => row.age == JsVal.num 99

/-- `try` body of `runCassandraWriteTest` from `lib/runTest.ts`. -/
def runCassandraWriteTestBody (env : Env) (records : List TestRecord) :
    Except String TestResult := do
  if env.cassandraInit = false then
    throw "Cassandra client not initialized"
  let _ ← seqChunks env.cassInsert (cassandraWriteBatches records)
  match records.head? with
  | none => throw jsUndefinedAccessMsg
  | some verifyRecord => do
    let result ← env.cassRead verifyRecord.id
    let dataIntegrity := match result.head? with
      | none => false
      | some row => row.name == JsVal.str verifyRecord.name
    pure { database := "Cassandra", operation := .write,
           timeTaken := env.tRet - env.tStart,
           recordCount := records.length,
           dataIntegrity := dataIntegrity, error := none }

/-- `runCassandraWriteTest` with its `catch` branch. -/
def runCassandraWriteTest (env : Env) (records : List TestRecord) : TestResult :=
  match runCassandraWriteTestBody env records with
  | .ok r => r
  | .error msg =>
    { database := "Cassandra", operation := .write,
      timeTaken := env.tRet - env.tStart,
      recordCount := records.length, dataIntegrity := false, error := some msg }

/-- `try` body of `runCassandraReadTest` from `lib/runTest.ts`. -/
def runCassandraReadTestBody (env : Env) (recordIds : List String) :
    Except String TestResult := do
  if env.cassandraInit = false then
    throw "Cassandra client not initialized"
  let limitCount := min recordIds.length 1000
  let existingRecords ← env.cassDiscover limitCount
  if existingRecords.length == 0 then
    pure { database := "Cassandra", operation := .read,
           timeTaken := env.tRet - env.tStart,
           recordCount := 0, dataIntegrity := false, error := some noRecordsMsg }
  else do
    let idsToRead := (existingRecords.take (min recordIds.length 1000)).map
      (fun row => row.id.toStr)
    let results ← awaitAll (idsToRead.map env.cassRead)
    let dataIntegrity ← cassandraReadVerify results
    pure { database := "Cassandra", operation := .read,
           timeTaken := env.tRet - env.tStart,
           recordCount := idsToRead.length,
           dataIntegrity := dataIntegrity, error := none }

/-- `runCassandraReadTest` with its `catch` branch. -/
def runCassandraReadTest (env : Env) (recordIds : List String) : TestResult :=
  match runCassandraReadTestBody env recordIds with
  | .ok r => r
  | .error msg =>
    { database := "Cassandra", operation := .read,
      timeTaken := env.tRet - env.tStart,
      recordCount := recordIds.length, dataIntegrity := false, error := some msg }

/-- `try` body of `runCassandraUpdateTest` from `lib/runTest.ts`.  The
verification read hands `idsToUpdate[0]` to the driver, which rejects when
the list is empty (`undefined` parameter). -/
def runCassandraUpdateTestBody (env : Env) (recordIds : List String) :
    Except String TestResult := do
  if env.cassandraInit = false then
    throw "Cassandra client not initialized"
  let limitCount := min recordIds.length 1000
  let existingRecords ← env.cassDiscover limitCount
  if existingRecords.length == 0 then
    pure { database := "Cassandra", operation := .update,
           timeTaken := env.tRet - env.tStart,
           recordCount := 0, dataIntegrity := false, error := some noRecordsMsg }
  else do
    let idsToUpdate := (existingRecords.take (min recordIds.length 1000)).map
      (fun row => row.id.toStr)
    let _ ← awaitAll (idsToUpdate.map env.cassUpdate)
    match idsToUpdate.head? with
    | none => throw jsUndefinedAccessMsg
    | some id0 => do
      let verifyResult ← env.cassRead id0
      let dataIntegrity := cassandraUpdateVerify verifyResult
      pure { database := "Cassandra", operation := .update,
             timeTaken := env.tRet - env.tStart,
             recordCount := idsToUpdate.length,
             dataIntegrity := dataIntegrity, error := none }

/-- `runCassandraUpdateTest` with its `catch` branch. -/
def runCassandraUpdateTest (env : Env) (recordIds : List String) : TestResult :=
  match runCassandraUpdateTestBody env recordIds with
  | .ok r => r
  | .error msg =>
    { database := "Cassandra", operation := .update,
      timeTaken := env.tRet - env.tStart,
      recordCount := recordIds.length, dataIntegrity := false, error := some msg }

/-- The integrity computation of the MongoDB read adapter: false when some
`findOne` returned `null`, otherwise a truthiness check of `id` and `name`
on `results[0]` (plain indexing — an empty `results` yields `undefined`,
which is falsy, so no exception here). -/
def mongoReadVerify (results : List (Option Row)) : Bool :=
  if results.any (fun r => r.isNone) then false
  else
    match results.head? with
    | none => false
    | some none => false
    | some (some first) => first.id.truthy && first.name.truthy

/-- The integrity computation of the MongoDB update adapter: the re-read
document exists and its `age` field is strictly (`!==`) the number `99`.
The updated name is not inspected and no numeric coercion is applied. -/
def mongoUpdateVerify (rec : Option Row) : Bool :=
  match rec with
  | none => false
  | some row => row.age == JsVal.num 99

/-- `try` body of `runMongoWriteTest` from `lib/runTest.ts`.  The whole
record list goes into one `insertMany` call; the spot check then reads
`records[0]` back (a `TypeError` on an empty batch). -/
def runMongoWriteTestBody (env : Env) (records : List TestRecord) :
    Except String TestResult := do
  if env.mongoInit = false then
    throw "MongoDB client not initialized"
  let _ ← env.mongoInsertMany records
  match records.head? with
  | none => throw jsUndefinedAccessMsg
  | some r0 => do
    let verifyRecord ← env.mongoFindOne (JsVal.str r0.id)
    let dataIntegrity := match verifyRecord with
      | none => false
      | some row => row.name == JsVal.str r0.name
    pure { database := "MongoDB", operation := .write,
           timeTaken := env.tRet - env.tStart,
           recordCount := records.length,
           dataIntegrity := dataIntegrity, error := none }

/-- `runMongoWriteTest` with its `catch` branch. -/
def runMongoWriteTest (env : Env) (records : List TestRecord) : TestResult :=
  match runMongoWriteTestBody env records with
  | .ok r => r
  | .error msg =>
    { database := "MongoDB", operation := .write,
      timeTaken := env.tRet - env.tStart,
      recordCount := records.length, dataIntegrity := false, error := some msg }

/-- `try` body of `runMongoReadTest` from `lib/runTest.ts`.  Discovery is
`find({}).limit(recordIds.length)`. -/
def runMongoReadTestBody (env : Env) (recordIds : List String) :
    Except String TestResult := do
  if env.mongoInit = false then
    throw "MongoDB client not initialized"
  let existingRecords ← env.mongoFind recordIds.length
  if existingRecords.length == 0 then
    pure { database := "MongoDB", operation := .read,
           timeTaken := env.tRet - env.tStart,
           recordCount := 0, dataIntegrity := false, error := some noRecordsMsg }
  else do
    let idsToRead := (existingRecords.take (min recordIds.length 1000)).map (·.id)
    let results ← awaitAll (idsToRead.map env.mongoFindOne)
    let dataIntegrity := mongoReadVerify results
    pure { database := "MongoDB", operation := .read,
           timeTaken := env.tRet - env.tStart,
           recordCount := idsToRead.length,
           dataIntegrity := dataIntegrity, error := none }

/-- `runMongoReadTest` with its `catch` branch. -/
def runMongoReadTest (env : Env) (recordIds : List String) : TestResult :=
  match runMongoReadTestBody env recordIds with
  | .ok r => r
  | .error msg =>
    { database := "MongoDB", operation := .read,
      timeTaken := env.tRet - env.tStart,
      recordCount := recordIds.length, dataIntegrity := false, error := some msg }

/-- `try` body of `runMongoUpdateTest` from `lib/runTest.ts`.  The
verification `findOne({ id: idsToUpdate[0] })` queries with `undefined`
(modelled as `null`) when the id list is empty, without raising. -/
def runMongoUpdateTestBody (env : Env) (recordIds : List String) :
    Except String TestResult := do
  if env.mongoInit = false then
    throw "MongoDB client not initialized"
  let existingRecords ← env.mongoFind recordIds.length
  if existingRecords.length == 0 then
    pure { database := "MongoDB", operation := .update,
           timeTaken := env.tRet - env.tStart,
           recordCount := 0, dataIntegrity := false, error := some noRecordsMsg }
  else do
    let idsToUpdate := (existingRecords.take (min recordIds.length 1000)).map (·.id)
    let _ ← awaitAll (idsToUpdate.map env.mongoUpdateOne)
    let verifyRecord ← env.mongoFindOne ((idsToUpdate.head?).getD JsVal.null)
    let dataIntegrity := mongoUpdateVerify verifyRecord
    pure { database := "MongoDB", operation := .update,
           timeTaken := env.tRet - env.tStart,
           recordCount := idsToUpdate.length,
           dataIntegrity := dataIntegrity, error := none }

/-- `runMongoUpdateTest` with its `catch` branch. -/
def runMongoUpdateTest (env : Env) (recordIds : List String) : TestResult :=
  match runMongoUpdateTestBody env recordIds with
  | .ok r => r
  | .error msg =>
    { database := "MongoDB", operation := .update,
      timeTaken := env.tRet - env.tStart,
      recordCount := recordIds.length, dataIntegrity := false, error := some msg }

/-- The integrity computation of the CockroachDB write adapter: the re-read
row exists, its `name` is truthy and `String(row.name)` equals the expected
name. -/
def cockroachWriteVerify (rows : List Row) (expectedName : String) : Bool :=
  match rows.head? with
  | none => false
  | some row => row.name.truthy && (row.name.toStr == expectedName)

/-- The integrity computation of the CockroachDB read adapter: no read came
back empty, `results[0].rows[0]` exists (a `TypeError` when `results` is
empty) with truthy `id` and `name`, and additionally `id`, `name` and `age`
are non-null. -/
def cockroachReadVerify (results : List (List Row)) : Except String Bool :=
  if results.any (fun r => r.length == 0) then pure false
  else
    match results.head? with
    | none => throw jsUndefinedAccessMsg
    | some rows0 =>
      match rows0.head? with
      | none => pure false
      | some first =>
        pure ((first.id.truthy && first.name.truthy) &&
          (first.id != JsVal.null && first.name != JsVal.null &&
            first.age != JsVal.null))

/-- The coerced `ageValue` of the CockroachDB update verification:
`typeof row.age === 'string' ? parseInt(row.age, 10) : Number(row.age)`
(`none` models `NaN`). -/
def cockCoerceAge : JsVal → Option Int
  | .str s => jsParseInt s
  | v => v.toNumber

/-- The integrity computation of the CockroachDB update adapter: the
coerced age equals `99` and `row.name && row.name.includes('Updated User')`
holds (calling `.includes` on a truthy non-string raises a `TypeError`). -/
def cockroachUpdateVerify (rows : List Row) : Except String Bool :=
  match rows.head? with
  | none => pure false
  | some row => do
    let ageOk := cockCoerceAge row.age == some 99
    let nameMatches ←
      (match row.name with
       | .str s => pure ((s != "") && jsIncludesStr s "Updated User")
       | .num n =>
         if n != 0 then throw "row.name.includes is not a function"
         else pure false
       | .null => pure false)
    pure (ageOk && nameMatches)

/-- `try` body of `runCockroachWriteTest` from `lib/runTest.ts`. -/
def runCockroachWriteTestBody (env : Env) (records : List TestRecord) :
    Except String TestResult := do
  if env.cockroachInit = false then
    throw "CockroachDB client not initialized"
  let _ ← seqChunks env.cockInsert (cockroachWriteBatches records)
  match records.head? with
  | none => throw jsUndefinedAccessMsg
  | some r0 => do
    let verifyResult ← env.cockRead (JsVal.str r0.id)
    let dataIntegrity := cockroachWriteVerify verifyResult r0.name
    pure { database := "CockroachDB", operation := .write,
           timeTaken := env.tRet - env.tStart,
           recordCount := records.length,
           dataIntegrity := dataIntegrity, error := none }

/-- `runCockroachWriteTest` with its `catch` branch. -/
def runCockroachWriteTest (env : Env) (records : List TestRecord) : TestResult :=
  match runCockroachWriteTestBody env records with
  | .ok r => r
  | .error msg =>
    { database := "CockroachDB", operation := .write,
      timeTaken := env.tRet - env.tStart,
      recordCount := records.length, dataIntegrity := false, error := some msg }

/-- `try` body of `runCockroachReadTest` from `lib/runTest.ts`.  Discovery
is `SELECT id FROM test_data LIMIT $1` with `recordIds.length`. -/
def runCockroachReadTestBody (env : Env) (recordIds : List String) :
    Except String TestResult := do
  if env.cockroachInit = false then
    throw "CockroachDB client not initialized"
  let existingRecords ← env.cockDiscover recordIds.length
  if existingRecords.length == 0 then
    pure { database := "CockroachDB", operation := .read,
           timeTaken := env.tRet - env.tStart,
           recordCount := 0, dataIntegrity := false, error := some noRecordsMsg }
  else do
    let idsToRead := (existingRecords.take (min recordIds.length 1000)).map (·.id)
    let results ← awaitAll (idsToRead.map env.cockRead)
    let dataIntegrity ← cockroachReadVerify results
    pure { database := "CockroachDB", operation := .read,
           timeTaken := env.tRet - env.tStart,
           recordCount := idsToRead.length,
           dataIntegrity := dataIntegrity, error := none }

/-- `runCockroachReadTest` with its `catch` branch. -/
def runCockroachReadTest (env : Env) (recordIds : List String) : TestResult :=
  match runCockroachReadTestBody env recordIds with
  | .ok r => r
  | .error msg =>
    { database := "CockroachDB", operation := .read,
      timeTaken := env.tRet - env.tStart,
      recordCount := recordIds.length, dataIntegrity := false, error := some msg }

/-- `try` body of `runCockroachUpdateTest` from `lib/runTest.ts`.  The
100 ms settling delay before verification only advances the clock and has no
other observable effect in this embedding.  When the id list is empty the
verification queries with `undefined` (modelled as `null`), which the `pg`
driver passes through as SQL `NULL` without raising. -/
def runCockroachUpdateTestBody (env : Env) (recordIds : List String) :
    Except String TestResult := do
  if env.cockroachInit = false then
    throw "CockroachDB client not initialized"
  let existingRecords ← env.cockDiscover recordIds.length
  if existingRecords.length == 0 then
    pure { database := "CockroachDB", operation := .update,
           timeTaken := env.tRet - env.tStart,
           recordCount := 0, dataIntegrity := false, error := some noRecordsMsg }
  else do
    let idsToUpdate := (existingRecords.take (min recordIds.length 1000)).map (·.id)
    let _ ← awaitAll (idsToUpdate.map env.cockUpdate)
    let verifyResult ← env.cockRead ((idsToUpdate.head?).getD JsVal.null)
    let dataIntegrity ← cockroachUpdateVerify verifyResult
    pure { database := "CockroachDB", operation := .update,
           timeTaken := env.tRet - env.tStart,
           recordCount := idsToUpdate.length,
           dataIntegrity := dataIntegrity, error := none }

/-- `runCockroachUpdateTest` with its `catch` branch. -/
def runCockroachUpdateTest (env : Env) (recordIds : List String) : TestResult :=
  match runCockroachUpdateTestBody env recordIds with
  | .ok r => r
  | .error msg =>
    { database := "CockroachDB", operation := .update,
      timeTaken := env.tRet - env.tStart,
      recordCount := recordIds.length, dataIntegrity := false, error := some msg }

/-- The raw backend identifiers, used by `runTest`'s own `catch` branch. -/
def dbTypeStr : DatabaseType → String
  | .cassandra => "cassandra"
  | .mongo => "mongo"
  | .cockroach => "cockroach"

/-- The display labels used inside the adapters and the handlers. -/
def dbLabel : DatabaseType → String
  | .cassandra => "Cassandra"
  | .mongo => "MongoDB"
  | .cockroach => "CockroachDB"

/-- `RECORD_COUNT` from `lib/runTest.ts`. -/
def RECORD_COUNT : Nat := 10000

/-- `try` body of `runTest` from `lib/runTest.ts`: connect, generate the
workload, dispatch to the adapter.  The trailing
`throw new Error('Unsupported database type')` of the source is dead code
here because the enumerations are exhaustive. -/
def runTestBody (env : Env) (dbType : DatabaseType) (operation : OperationType) :
    Except String TestResult := do
  let _ ← (match dbType with
    | .cassandra => env.connectCassandraRes
    | .mongo => env.connectMongoRes
    | .cockroach => env.connectCockroachRes)
  let testRecords := generateTestData env.uuid env.now RECORD_COUNT
  let recordIds := testRecords.map (·.id)
  pure (match dbType, operation with
    | .cassandra, .write => runCassandraWriteTest env testRecords
    | .cassandra, .read => runCassandraReadTest env (recordIds.take 1000)
    | .cassandra, .update => runCassandraUpdateTest env (recordIds.take 1000)
    | .mongo, .write => runMongoWriteTest env testRecords
    | .mongo, .read => runMongoReadTest env (recordIds.take 1000)
    | .mongo, .update => runMongoUpdateTest env (recordIds.take 1000)
    | .cockroach, .write => runCockroachWriteTest env testRecords
    | .cockroach, .read => runCockroachReadTest env (recordIds.take 1000)
    | .cockroach, .update => runCockroachUpdateTest env (recordIds.take 1000))

/-- `runTest` with its `catch` branch. -/
def runTest (env : Env) (dbType : DatabaseType) (operation : OperationType) :
    TestResult :=
  match runTestBody env dbType operation with
  | .ok r => r
  | .error msg =>
    { database := dbTypeStr dbType, operation := operation, timeTaken := 0,
      recordCount := 0, dataIntegrity := false, error := some msg }
/-- The field invariant of claim C1, per result. -/
def errImpliesNoIntegrity (r : TestResult) : Prop :=
  r.error.isSome → r.dataIntegrity = false

lemma cassReadBody_good (env : Env) (ids : List String) (r : TestResult)
    (h : runCassandraReadTestBody env ids = .ok r) :
    r.timeTaken = env.tRet - env.tStart ∧ errImpliesNoIntegrity r := by
  unfold runCassandraReadTestBody at h
  simp only [bind, Except.bind, pure, Except.pure] at h
  repeat' split at h
  all_goals first
    | (cases h; exact ⟨rfl, fun _ => rfl⟩)
    | (cases h; exact ⟨rfl, fun hc => by simp at hc⟩)
    | simp_all

lemma cassRead_good (env : Env) (ids : List String) :
    (runCassandraReadTest env ids).timeTaken = env.tRet - env.tStart ∧
      errImpliesNoIntegrity (runCassandraReadTest env ids) := by
  cases hb : runCassandraReadTestBody env ids with
  | error msg =>
    unfold runCassandraReadTest
    rw [hb]
    exact ⟨rfl, fun _ => rfl⟩
  | ok res =>
    unfold runCassandraReadTest
    rw [hb]
    exact cassReadBody_good env ids res hb

lemma cassWriteBody_good (env : Env) (records : List TestRecord) (r : TestResult)
    (h : runCassandraWriteTestBody env records = .ok r) :
    r.timeTaken = env.tRet - env.tStart ∧ errImpliesNoIntegrity r := by
  unfold runCassandraWriteTestBody at h
  simp only [bind, Except.bind, pure, Except.pure] at h
  repeat' split at h
  all_goals first
    | (cases h; exact ⟨rfl, fun _ => rfl⟩)
    | (cases h; exact ⟨rfl, fun hc => by simp at hc⟩)
    | simp_all

lemma cassWrite_good (env : Env) (records : List TestRecord) :
    (runCassandraWriteTest env records).timeTaken = env.tRet - env.tStart ∧
      errImpliesNoIntegrity (runCassandraWriteTest env records) := by
  cases hb : runCassandraWriteTestBody env records with
  | error msg =>
    unfold runCassandraWriteTest
    rw [hb]
    exact ⟨rfl, fun _ => rfl⟩
  | ok res =>
    unfold runCassandraWriteTest
    rw [hb]
    exact cassWriteBody_good env records res hb

lemma cassUpdateBody_good (env : Env) (ids : List String) (r : TestResult)
    (h : runCassandraUpdateTestBody env ids = .ok r) :
    r.timeTaken = env.tRet - env.tStart ∧ errImpliesNoIntegrity r := by
  unfold runCassandraUpdateTestBody at h
  simp only [bind, Except.bind, pure, Except.pure] at h
  repeat' split at h
  all_goals first
    | (cases h; exact ⟨rfl, fun _ => rfl⟩)
    | (cases h; exact ⟨rfl, fun hc => by simp at hc⟩)
    | simp_all

lemma cassUpdate_good (env : Env) (ids : List String) :
    (runCassandraUpdateTest env ids).timeTaken = env.tRet - env.tStart ∧
      errImpliesNoIntegrity (runCassandraUpdateTest env ids) := by
  cases hb : runCassandraUpdateTestBody env ids with
  | error msg =>
    unfold runCassandraUpdateTest
    rw [hb]
    exact ⟨rfl, fun _ => rfl⟩
  | ok res =>
    unfold runCassandraUpdateTest
    rw [hb]
    exact cassUpdateBody_good env ids res hb

lemma mongoWriteBody_good (env : Env) (records : List TestRecord) (r : TestResult)
    (h : runMongoWriteTestBody env records = .ok r) :
    r.timeTaken = env.tRet - env.tStart ∧ errImpliesNoIntegrity r := by
  unfold runMongoWriteTestBody at h
  simp only [bind, Except.bind, pure, Except.pure] at h
  repeat' split at h
  all_goals first
    | (cases h; exact ⟨rfl, fun _ => rfl⟩)
    | (cases h; exact ⟨rfl, fun hc => by simp at hc⟩)
    | simp_all

lemma mongoWrite_good (env : Env) (records : List TestRecord) :
    (runMongoWriteTest env records).timeTaken = env.tRet - env.tStart ∧
      errImpliesNoIntegrity (runMongoWriteTest env records) := by
  cases hb : runMongoWriteTestBody env records with
  | error msg =>
    unfold runMongoWriteTest
    rw [hb]
    exact ⟨rfl, fun _ => rfl⟩
  | ok res =>
    unfold runMongoWriteTest
    rw [hb]
    exact mongoWriteBody_good env records res hb

lemma mongoReadBody_good (env : Env) (ids : List String) (r : TestResult)
    (h : runMongoReadTestBody env ids = .ok r) :
    r.timeTaken = env.tRet - env.tStart ∧ errImpliesNoIntegrity r := by
  unfold runMongoReadTestBody at h
  simp only [bind, Except.bind, pure, Except.pure] at h
  repeat' split at h
  all_goals first
    | (cases h; exact ⟨rfl, fun _ => rfl⟩)
    | (cases h; exact ⟨rfl, fun hc => by simp at hc⟩)
    | simp_all

lemma mongoRead_good (env : Env) (ids : List String) :
    (runMongoReadTest env ids).timeTaken = env.tRet - env.tStart ∧
      errImpliesNoIntegrity (runMongoReadTest env ids) := by
  cases hb : runMongoReadTestBody env ids with
  | error msg =>
    unfold runMongoReadTest
    rw [hb]
    exact ⟨rfl, fun _ => rfl⟩
  | ok res =>
    unfold runMongoReadTest
    rw [hb]
    exact mongoReadBody_good env ids res hb

lemma mongoUpdateBody_good (env : Env) (ids : List String) (r : TestResult)
    (h : runMongoUpdateTestBody env ids = .ok r) :
    r.timeTaken = env.tRet - env.tStart ∧ errImpliesNoIntegrity r := by
  unfold runMongoUpdateTestBody at h
  simp only [bind, Except.bind, pure, Except.pure] at h
  repeat' split at h
  all_goals first
    | (cases h; exact ⟨rfl, fun _ => rfl⟩)
    | (cases h; exact ⟨rfl, fun hc => by simp at hc⟩)
    | simp_all

lemma mongoUpdate_good (env : Env) (ids : List String) :
    (runMongoUpdateTest env ids).timeTaken = env.tRet - env.tStart ∧
      errImpliesNoIntegrity (runMongoUpdateTest env ids) := by
  cases hb : runMongoUpdateTestBody env ids with
  | error msg =>
    unfold runMongoUpdateTest
    rw [hb]
    exact ⟨rfl, fun _ => rfl⟩
  | ok res =>
    unfold runMongoUpdateTest
    rw [hb]
    exact mongoUpdateBody_good env ids res hb

lemma cockWriteBody_good (env : Env) (records : List TestRecord) (r : TestResult)
    (h : runCockroachWriteTestBody env records = .ok r) :
    r.timeTaken = env.tRet - env.tStart ∧ errImpliesNoIntegrity r := by
  unfold runCockroachWriteTestBody at h
  simp only [bind, Except.bind, pure, Except.pure] at h
  repeat' split at h
  all_goals first
    | (cases h; exact ⟨rfl, fun _ => rfl⟩)
    | (cases h; exact ⟨rfl, fun hc => by simp at hc⟩)
    | simp_all

lemma cockWrite_good (env : Env) (records : List TestRecord) :
    (runCockroachWriteTest env records).timeTaken = env.tRet - env.tStart ∧
      errImpliesNoIntegrity (runCockroachWriteTest env records) := by
  cases hb : runCockroachWriteTestBody env records with
  | error msg =>
    unfold runCockroachWriteTest
    rw [hb]
    exact ⟨rfl, fun _ => rfl⟩
  | ok res =>
    unfold runCockroachWriteTest
    rw [hb]
    exact cockWriteBody_good env records res hb

lemma cockReadBody_good (env : Env) (ids : List String) (r : TestResult)
    (h : runCockroachReadTestBody env ids = .ok r) :
    r.timeTaken = env.tRet - env.tStart ∧ errImpliesNoIntegrity r := by
  unfold runCockroachReadTestBody at h
  simp only [bind, Except.bind, pure, Except.pure] at h
  repeat' split at h
  all_goals first
    | (cases h; exact ⟨rfl, fun _ => rfl⟩)
    | (cases h; exact ⟨rfl, fun hc => by simp at hc⟩)
    | simp_all

lemma cockRead_good (env : Env) (ids : List String) :
    (runCockroachReadTest env ids).timeTaken = env.tRet - env.tStart ∧
      errImpliesNoIntegrity (runCockroachReadTest env ids) := by
  cases hb : runCockroachReadTestBody env ids with
  | error msg =>
    unfold runCockroachReadTest
    rw [hb]
    exact ⟨rfl, fun _ => rfl⟩
  | ok res =>
    unfold runCockroachReadTest
    rw [hb]
    exact cockReadBody_good env ids res hb

lemma cockUpdateBody_good (env : Env) (ids : List String) (r : TestResult)
    (h : runCockroachUpdateTestBody env ids = .ok r) :
    r.timeTaken = env.tRet - env.tStart ∧ errImpliesNoIntegrity r := by
  unfold runCockroachUpdateTestBody at h
  simp only [bind, Except.bind, pure, Except.pure] at h
  repeat' split at h
  all_goals first
    | (cases h; exact ⟨rfl, fun _ => rfl⟩)
    | (cases h; exact ⟨rfl, fun hc => by simp at hc⟩)
    | simp_all

lemma cockUpdate_good (env : Env) (ids : List String) :
    (runCockroachUpdateTest env ids).timeTaken = env.tRet - env.tStart ∧
      errImpliesNoIntegrity (runCockroachUpdateTest env ids) := by
  cases hb : runCockroachUpdateTestBody env ids with
  | error msg =>
    unfold runCockroachUpdateTest
    rw [hb]
    exact ⟨rfl, fun _ => rfl⟩
  | ok res =>
    unfold runCockroachUpdateTest
    rw [hb]
    exact cockUpdateBody_good env ids res hb

lemma runTestBody_good (env : Env) (db : DatabaseType) (op : OperationType)
    (r : TestResult) (h : runTestBody env db op = .ok r) :
    r.timeTaken = env.tRet - env.tStart ∧ errImpliesNoIntegrity r := by
  cases db <;> cases op
  · unfold runTestBody at h
    simp only [bind, Except.bind, pure, Except.pure] at h
    split at h
    · exact absurd h (by simp)
    · cases h
      exact cassRead_good env _
  · unfold runTestBody at h
    simp only [bind, Except.bind, pure, Except.pure] at h
    split at h
    · exact absurd h (by simp)
    · cases h
      exact cassWrite_good env _
  · unfold runTestBody at h
    simp only [bind, Except.bind, pure, Except.pure] at h
    split at h
    · exact absurd h (by simp)
    · cases h
      exact cassUpdate_good env _
  · unfold runTestBody at h
    simp only [bind, Except.bind, pure, Except.pure] at h
    split at h
    · exact absurd h (by simp)
    · cases h
      exact mongoRead_good env _
  · unfold runTestBody at h
    simp only [bind, Except.bind, pure, Except.pure] at h
    split at h
    · exact absurd h (by simp)
    · cases h
      exact mongoWrite_good env _
  · unfold runTestBody at h
    simp only [bind, Except.bind, pure, Except.pure] at h
    split at h
    · exact absurd h (by simp)
    · cases h
      exact mongoUpdate_good env _
  · unfold runTestBody at h
    simp only [bind, Except.bind, pure, Except.pure] at h
    split at h
    · exact absurd h (by simp)
    · cases h
      exact cockRead_good env _
  · unfold runTestBody at h
    simp only [bind, Except.bind, pure, Except.pure] at h
    split at h
    · exact absurd h (by simp)
    · cases h
      exact cockWrite_good env _
  · unfold runTestBody at h
    simp only [bind, Except.bind, pure, Except.pure] at h
    split at h
    · exact absurd h (by simp)
    · cases h
      exact cockUpdate_good env _

/-- Claim C1: for every backend, every operation and every environment with
a monotone wall clock, the returned TestResult has `timeTaken ≥ 0` and
`recordCount ≥ 0`, and whenever `error` is set, `dataIntegrity` is false —
on every return path, including every adapter `catch` branch and
`runTest`'s own `catch`. -/
theorem runTest_result_invariants (env : Env) (db : DatabaseType)
    (op : OperationType) (hclock : env.tStart ≤ env.tRet) :
    0 ≤ (runTest env db op).timeTaken ∧
    0 ≤ (runTest env db op).recordCount ∧
    ((runTest env db op).error.isSome → (runTest env db op).dataIntegrity = false) := by
  cases hb : runTestBody env db op with
  | error msg =>
    unfold runTest
    rw [hb]
    exact ⟨le_refl 0, Nat.zero_le _, fun _ => rfl⟩
  | ok res =>
    unfold runTest
    rw [hb]
    have hg := runTestBody_good env db op res hb
    refine ⟨?_, Nat.zero_le _, hg.2⟩
    rw [hg.1]
    omega

/-- An environment in which no backend handle was ever initialized and the
clock stands still; every adapter call fails fast. -/
def env0 : Env where
  tStart := 0
  tRet := 0
  connectCassandraRes := .ok ()
  connectMongoRes := .ok ()
  connectCockroachRes := .ok ()
  cassandraInit := false
  mongoInit := false
  cockroachInit := false
  uuid := fun _ => ""
  now := 0
  cassDiscover := fun _ => .ok []
  cassRead := fun _ => .ok []
  cassInsert := fun _ => .ok ()
  cassUpdate := fun _ => .ok ()
  mongoFind := fun _ => .ok []
  mongoFindOne := fun _ => .ok none
  mongoInsertMany := fun _ => .ok ()
  mongoUpdateOne := fun _ => .ok ()
  cockDiscover := fun _ => .ok []
  cockRead := fun _ => .ok []
  cockInsert := fun _ => .ok ()
  cockUpdate := fun _ => .ok ()

/-- Witness for C1 at a concrete environment, backend and operation. -/
theorem runTest_result_invariants_witness :
    0 ≤ (runTest env0 .cassandra .read).timeTaken ∧
    ((runTest env0 .cassandra .read).error.isSome →
      (runTest env0 .cassandra .read).dataIntegrity = false) := by
  have h := runTest_result_invariants env0 .cassandra .read (by decide)
  exact ⟨h.1, h.2.2⟩

/-- The `try` body of the adapter selected by a (backend, operation) cell;
`records` feeds the write adapters, `ids` the read/update adapters, exactly
as `runTest` dispatches them. -/
def adapterBody (env : Env) (db : DatabaseType) (op : OperationType)
    (records : List TestRecord) (ids : List String) : Except String TestResult :=
  match db, op with
  | .cassandra, .write => runCassandraWriteTestBody env records
  | .cassandra, .read => runCassandraReadTestBody env ids
  | .cassandra, .update => runCassandraUpdateTestBody env ids
  | .mongo, .write => runMongoWriteTestBody env records
  | .mongo, .read => runMongoReadTestBody env ids
  | .mongo, .update => runMongoUpdateTestBody env ids
  | .cockroach, .write => runCockroachWriteTestBody env records
  | .cockroach, .read => runCockroachReadTestBody env ids
  | .cockroach, .update => runCockroachUpdateTestBody env ids

/-- The full adapter (body plus `catch`) selected by a cell. -/
def adapterRun (env : Env) (db : DatabaseType) (op : OperationType)
    (records : List TestRecord) (ids : List String) : TestResult :=
  match db, op with
  | .cassandra, .write => runCassandraWriteTest env records
  | .cassandra, .read => runCassandraReadTest env ids
  | .cassandra, .update => runCassandraUpdateTest env ids
  | .mongo, .write => runMongoWriteTest env records
  | .mongo, .read => runMongoReadTest env ids
  | .mongo, .update => runMongoUpdateTest env ids
  | .cockroach, .write => runCockroachWriteTest env records
  | .cockroach, .read => runCockroachReadTest env ids
  | .cockroach, .update => runCockroachUpdateTest env ids

/-- Length of the input list the selected adapter received. -/
def adapterInputLen (op : OperationType) (records : List TestRecord)
    (ids : List String) : Nat :=
  match op with
  | .write => records.length
  | .read => ids.length
  | .update => ids.length

/-- Counterexample for C2 as stated: with an uninitialized Cassandra client
the read adapter's very first step throws, before identifier discovery, yet
the caught result reports `recordCount = 1` (the input list's length), not
the `0` the claim requires for pre-discovery failures. -/
theorem adapter_catch_cex :
    (runCassandraReadTest env0 ["x"]).error = some "Cassandra client not initialized" ∧
    (runCassandraReadTest env0 ["x"]).recordCount ≠ 0 := by
  constructor
  · rfl
  · decide

/-- Claim C2 (amended): every failure thrown or rejected inside an adapter
operation is caught and converted into a TestResult whose `error` is the
failure's message and whose `dataIntegrity` is false; its `recordCount` is
always the length of the adapter's input list (requested records for write,
candidate ids for read/update), regardless of how far execution got before
the failure. -/
theorem adapter_catch_spec (env : Env) (db : DatabaseType) (op : OperationType)
    (records : List TestRecord) (ids : List String) (msg : String)
    (h : adapterBody env db op records ids = .error msg) :
    adapterRun env db op records ids =
      { database := dbLabel db, operation := op,
        timeTaken := env.tRet - env.tStart,
        recordCount := adapterInputLen op records ids,
        dataIntegrity := false, error := some msg } := by
  cases db <;> cases op <;>
    simp_all [adapterBody, adapterRun, adapterInputLen, dbLabel,
      runCassandraWriteTest, runCassandraReadTest, runCassandraUpdateTest,
      runMongoWriteTest, runMongoReadTest, runMongoUpdateTest,
      runCockroachWriteTest, runCockroachReadTest, runCockroachUpdateTest]

/-- Witness for C2 (amended) at a concrete failing environment. -/
theorem adapter_catch_spec_witness :
    adapterRun env0 .cassandra .read [] ["x"] =
      { database := "Cassandra", operation := .read, timeTaken := 0,
        recordCount := 1, dataIntegrity := false,
        error := some "Cassandra client not initialized" } := by
  have h := adapter_catch_spec env0 .cassandra .read [] ["x"]
    "Cassandra client not initialized" (by rfl)
  simpa [dbLabel, adapterInputLen, env0] using h

/-- Whether the handle accessor for a backend returns a live handle. -/
def envInit (env : Env) : DatabaseType → Bool
  | .cassandra => env.cassandraInit
  | .mongo => env.mongoInit
  | .cockroach => env.cockroachInit

/-- The identifier-discovery query of a backend (`SELECT id ... LIMIT n`,
`find({}).limit(n)`, `SELECT id ... LIMIT $1`). -/
def envDiscover (env : Env) : DatabaseType → Nat → Except String (List Row)
  | .cassandra => env.cassDiscover
  | .mongo => env.mongoFind
  | .cockroach => env.cockDiscover

/-- Claim C3: for every backend, a read or update invoked while the backend
holds zero persisted rows (discovery returns the empty row set) returns
immediately with `recordCount = 0`, `dataIntegrity = false` and the exact
fixed error message. -/
theorem empty_dataset_spec (env : Env) (db : DatabaseType) (op : OperationType)
    (records : List TestRecord) (ids : List String)
    (hop : op ≠ .write)
    (hinit : envInit env db = true)
    (hempty : ∀ n, envDiscover env db n = .ok []) :
    adapterRun env db op records ids =
      { database := dbLabel db, operation := op,
        timeTaken := env.tRet - env.tStart,
        recordCount := 0, dataIntegrity := false,
        error := some noRecordsMsg } := by
  cases db <;> cases op <;> try exact absurd rfl hop
  all_goals
    simp_all [adapterRun, envInit, envDiscover, dbLabel,
      runCassandraReadTest, runCassandraReadTestBody,
      runCassandraUpdateTest, runCassandraUpdateTestBody,
      runMongoReadTest, runMongoReadTestBody,
      runMongoUpdateTest, runMongoUpdateTestBody,
      runCockroachReadTest, runCockroachReadTestBody,
      runCockroachUpdateTest, runCockroachUpdateTestBody,
      bind, Except.bind, pure, Except.pure]

/-- An environment with live handles over an empty data set. -/
def envEmpty : Env :=
  { env0 with cassandraInit := true, mongoInit := true, cockroachInit := true }

/-- Witness for C3 at a concrete backend and environment. -/
theorem empty_dataset_spec_witness :
    adapterRun envEmpty .mongo .read [] ["x"] =
      { database := "MongoDB", operation := .read, timeTaken := 0,
        recordCount := 0, dataIntegrity := false,
        error := some noRecordsMsg } := by
  have h := empty_dataset_spec envEmpty .mongo .read [] ["x"]
    (by decide) (by rfl) (fun n => rfl)
  simpa [dbLabel] using h

/-- Environment for the C4 counterexample: MongoDB is live with one stored
row, updates succeed, and the post-update re-read returns a document whose
`age` is the number 99 but whose `name` is "Other" (it does not contain
"Updated User"). -/
def envC4 : Env :=
  { env0 with
    mongoInit := true
    mongoFind := fun _ =>
      .ok [{ id := JsVal.str "a", name := JsVal.str "x", age := JsVal.num 1 }]
    mongoFindOne := fun _ =>
      .ok (some { id := JsVal.str "a", name := JsVal.str "Other", age := JsVal.num 99 }) }

/-- Counterexample for C4 as stated: the MongoDB update verification reports
`dataIntegrity = true` although the re-read record's name does not contain
"Updated User" — the Cassandra and MongoDB adapters never inspect the name. -/
theorem update_verify_cex :
    (runMongoUpdateTest envC4 ["x"]).dataIntegrity = true ∧
    (runMongoUpdateTest envC4 ["x"]).error = none ∧
    jsIncludesStr "Other" "Updated User" = false := by
  refine ⟨?_, ?_, ?_⟩ <;> decide

/-- Claim C4 (amended): only the CockroachDB update verification checks both
conditions — coerced numeric age equal to the sentinel 99 and a name
containing "Updated User".  The MongoDB and Cassandra update verifications
pass exactly when the re-read record exists and its age is strictly
(`!==`, no coercion) the number 99; the name is not checked. -/
theorem update_verification_spec :
    (∀ rows, cockroachUpdateVerify rows = .ok true →
      ∃ r, rows.head? = some r ∧ cockCoerceAge r.age = some 99 ∧
        ∃ s, r.name = JsVal.str s ∧ jsIncludesStr s "Updated User" = true) ∧
    (∀ rec : Option Row, mongoUpdateVerify rec = true ↔
      ∃ r, rec = some r ∧ r.age = JsVal.num 99) ∧
    (∀ rows, cassandraUpdateVerify rows = true ↔
      ∃ r, rows.head? = some r ∧ r.age = JsVal.num 99) := by
  refine ⟨?_, ?_, ?_⟩
  · intro rows h
    cases rows with
    | nil =>
      exact absurd h (by simp [cockroachUpdateVerify, pure, Except.pure])
    | cons r rest =>
      refine ⟨r, rfl, ?_⟩
      unfold cockroachUpdateVerify at h
      simp only [List.head?_cons] at h
      cases hn : r.name with
      | str s =>
        rw [hn] at h
        simp only [bind, Except.bind, pure, Except.pure, Except.ok.injEq] at h
        have hsplit := h
        rw [Bool.and_eq_true, Bool.and_eq_true] at hsplit
        refine ⟨beq_iff_eq.mp hsplit.1, s, rfl, hsplit.2.2⟩
      | num n =>
        rw [hn] at h
        simp only [bind, Except.bind, pure, Except.pure] at h
        by_cases hz : (n != 0) = true
        · simp only [if_pos hz] at h
          simp [throw, throwThe, MonadExceptOf.throw] at h
        · simp only [if_neg hz] at h
          simp at h
      | null =>
        rw [hn] at h
        exact absurd h (by simp [bind, Except.bind, pure, Except.pure])
  · intro rec
    unfold mongoUpdateVerify
    cases rec with
    | none => simp
    | some row => simp [beq_iff_eq]
  · intro rows
    unfold cassandraUpdateVerify
    cases hh : rows.head? with
    | none => simp [hh]
    | some row => simp [hh, beq_iff_eq]

/-- A row as the CockroachDB update verification wants it: string age that
parses to 99, name containing "Updated User". -/
def rowGood : Row :=
  { id := JsVal.str "a", name := JsVal.str "Updated User a", age := JsVal.str "99" }

/-- Witness for C4 (amended) at a concrete verified row. -/
theorem update_verification_spec_witness :
    cockCoerceAge rowGood.age = some 99 ∧
      jsIncludesStr "Updated User a" "Updated User" = true := by
  obtain ⟨r, hr, hage, s, hs, hincl⟩ :=
    update_verification_spec.1 [rowGood] (by rfl)
  have hr' : r = rowGood := (Option.some.inj hr).symm
  subst hr'
  have hs' : JsVal.str "Updated User a" = JsVal.str s := hs
  cases hs'
  exact ⟨hage, hincl⟩

lemma chunkGo_join {α : Type} :
    ∀ (fuel : Nat) (l : List α), l.length ≤ fuel → (chunkGo fuel l).flatten = l := by
  intro fuel
  induction fuel with
  | zero =>
    intro l hl
    cases l with
    | nil => rfl
    | cons x xs => simp at hl
  | succ fuel ih =>
    intro l hl
    cases l with
    | nil => rfl
    | cons x xs =>
      show ((x :: xs).take 100 ++ (chunkGo fuel ((x :: xs).drop 100)).flatten) = x :: xs
      rw [ih ((x :: xs).drop 100) ?_]
      · exact List.take_append_drop 100 (x :: xs)
      · rw [List.length_drop]
        simp only [List.length_cons] at hl ⊢
        omega

/-- Joining the 100-chunks recovers the record list. -/
lemma chunk100_join {α : Type} (l : List α) : (chunk100 l).flatten = l :=
  chunkGo_join l.length l (le_refl _)

lemma chunkGo_mem {α : Type} :
    ∀ (fuel : Nat) (l : List α), ∀ c ∈ chunkGo fuel l, c ≠ [] ∧ c.length ≤ 100 := by
  intro fuel
  induction fuel with
  | zero =>
    intro l c hc
    cases l with
    | nil => simp [chunkGo] at hc
    | cons x xs => simp [chunkGo] at hc
  | succ fuel ih =>
    intro l c hc
    cases l with
    | nil => simp [chunkGo] at hc
    | cons x xs =>
      simp only [chunkGo, List.mem_cons] at hc
      cases hc with
      | inl h =>
        subst h
        refine ⟨by simp, ?_⟩
        rw [List.length_take]
        exact min_le_left _ _
      | inr h => exact ih _ c h

/-- Every 100-chunk is nonempty and holds at most 100 records. -/
lemma chunk100_mem {α : Type} (l : List α) :
    ∀ c ∈ chunk100 l, c ≠ [] ∧ c.length ≤ 100 :=
  chunkGo_mem l.length l

/-- A throwaway record for concrete instantiations. -/
def recDummy : TestRecord :=
  { id := "", user_id := 0, name := "", email := "", age := 0,
    created_at := 0, data := "" }

/-- Counterexample for C5 as stated: on a 101-record batch the MongoDB
write adapter dispatches one single group holding all 101 records (its one
`insertMany` call), while chunking into 100s would give two groups. -/
theorem write_batches_cex :
    (mongoWriteBatches (List.replicate 101 recDummy)).length = 1 ∧
    (mongoWriteBatches (List.replicate 101 recDummy)).head?
      = some (List.replicate 101 recDummy) ∧
    (List.replicate 101 recDummy).length = 101 ∧
    (chunk100 (List.replicate 101 recDummy)).length = 2 := by
  refine ⟨rfl, rfl, by decide, by decide⟩

/-- Claim C5 (amended): the Cassandra and CockroachDB write adapters split
the inserts into sequential slices of at most 100 records (the slices join
back to the input, in order), each slice dispatched concurrently via
`Promise.all` and awaited as a unit (`seqChunks`); the MongoDB write adapter
instead issues one `insertMany` of the whole list as a single group. -/
theorem write_batches_spec (records : List TestRecord) :
    cassandraWriteBatches records = chunk100 records ∧
    cockroachWriteBatches records = chunk100 records ∧
    mongoWriteBatches records = [records] ∧
    (chunk100 records).flatten = records ∧
    (∀ c ∈ chunk100 records, c ≠ [] ∧ c.length ≤ 100) :=
  ⟨rfl, rfl, rfl, chunk100_join records, chunk100_mem records⟩

/-- Witness for C5 (amended) on a concrete 101-record batch. -/
theorem write_batches_spec_witness :
    (chunk100 (List.replicate 101 recDummy)).flatten = List.replicate 101 recDummy ∧
    mongoWriteBatches (List.replicate 101 recDummy) = [List.replicate 101 recDummy] ∧
    (List.replicate 100 recDummy ≠ [] ∧ (List.replicate 100 recDummy).length ≤ 100) := by
  have h := write_batches_spec (List.replicate 101 recDummy)
  exact ⟨h.2.2.2.1, h.2.2.1, h.2.2.2.2 (List.replicate 100 recDummy) (by decide)⟩

/-- `times.filter(t => t > 0)` from the repeated-run handler. -/
def validTimes (times : List ℚ) : List ℚ :=
  times.filter (fun t => decide (0 < t))

/-- `Math.min(...xs)` on a nonempty array (the handler guards emptiness, so
the `[]` value is irrelevant). -/
def jsMin : List ℚ → ℚ
  | [] => 0
  | x :: xs => xs.foldl min x

/-- `Math.max(...xs)` on a nonempty array. -/
def jsMax : List ℚ → ℚ
  | [] => 0
  | x :: xs => xs.foldl max x

/-- `average` of the repeated-run handler: mean of the positive entries,
0 when every iteration failed. -/
def repeatAverage (times : List ℚ) : ℚ :=
  if (validTimes times).length > 0 then
    (validTimes times).sum / ((validTimes times).length : ℚ)
  else 0

/-- `min` of the repeated-run handler. -/
def repeatMin (times : List ℚ) : ℚ :=
  if (validTimes times).length > 0 then jsMin (validTimes times) else 0

/-- `max` of the repeated-run handler. -/
def repeatMax (times : List ℚ) : ℚ :=
  if (validTimes times).length > 0 then jsMax (validTimes times) else 0

lemma foldl_min_le_init (l : List ℚ) : ∀ a : ℚ, l.foldl min a ≤ a := by
  induction l with
  | nil => intro a; exact le_refl a
  | cons x xs ih =>
    intro a
    calc (x :: xs).foldl min a = xs.foldl min (min a x) := rfl
    _ ≤ min a x := ih (min a x)
    _ ≤ a := min_le_left a x

lemma le_foldl_max_init (l : List ℚ) : ∀ a : ℚ, a ≤ l.foldl max a := by
  induction l with
  | nil => intro a; exact le_refl a
  | cons x xs ih =>
    intro a
    calc a ≤ max a x := le_max_left a x
    _ ≤ xs.foldl max (max a x) := ih (max a x)
    _ = (x :: xs).foldl max a := rfl

lemma foldl_min_mul_le (l : List ℚ) :
    ∀ a : ℚ, (l.foldl min a) * (1 + l.length) ≤ a + l.sum := by
  induction l with
  | nil => intro a; simp
  | cons y ys ih =>
    intro a
    have hfold : (y :: ys).foldl min a = ys.foldl min (min a y) := rfl
    have hm := ih (min a y)
    have hmin_le : ys.foldl min (min a y) ≤ min a y := foldl_min_le_init ys (min a y)
    have hlen : ((y :: ys).length : ℚ) = (ys.length : ℚ) + 1 := by
      push_cast [List.length_cons]
      ring
    rw [hfold, hlen]
    have hsum : (y :: ys).sum = y + ys.sum := List.sum_cons
    rw [hsum]
    have h1 : ys.foldl min (min a y) * (1 + ((ys.length : ℚ) + 1))
        = ys.foldl min (min a y) * (1 + (ys.length : ℚ)) + ys.foldl min (min a y) := by
      ring
    rw [h1]
    have h2 : ys.foldl min (min a y) ≤ a := le_trans hmin_le (min_le_left a y)
    have h4 : min a y ≤ y := min_le_right a y
    linarith

lemma le_foldl_max_mul (l : List ℚ) :
    ∀ a : ℚ, a + l.sum ≤ (l.foldl max a) * (1 + l.length) := by
  induction l with
  | nil => intro a; simp
  | cons y ys ih =>
    intro a
    have hfold : (y :: ys).foldl max a = ys.foldl max (max a y) := rfl
    have hm := ih (max a y)
    have hmax_ge : max a y ≤ ys.foldl max (max a y) := le_foldl_max_init ys (max a y)
    have hlen : ((y :: ys).length : ℚ) = (ys.length : ℚ) + 1 := by
      push_cast [List.length_cons]
      ring
    rw [hfold, hlen]
    have hsum : (y :: ys).sum = y + ys.sum := List.sum_cons
    rw [hsum]
    have h1 : ys.foldl max (max a y) * (1 + ((ys.length : ℚ) + 1))
        = ys.foldl max (max a y) * (1 + (ys.length : ℚ)) + ys.foldl max (max a y) := by
      ring
    rw [h1]
    have h2 : a ≤ ys.foldl max (max a y) := le_trans (le_max_left a y) hmax_ge
    have h4 : y ≤ max a y := le_max_right a y
    linarith

/-- Claim C7: the aggregated average, min and max are computed over the
non-zero (equivalently, with durations nonnegative, positive) entries only;
if no non-zero entry exists all three are 0, and otherwise
`min ≤ average ≤ max`. -/
theorem repeat_stats_spec (times : List ℚ) (hpos : ∀ t ∈ times, 0 ≤ t) :
    ((∀ t ∈ times, t = 0) →
      repeatAverage times = 0 ∧ repeatMin times = 0 ∧ repeatMax times = 0) ∧
    ((∃ t ∈ times, t ≠ 0) →
      repeatMin times ≤ repeatAverage times ∧
        repeatAverage times ≤ repeatMax times) := by
  constructor
  · intro hall
    have hv : validTimes times = [] := by
      rw [validTimes, List.filter_eq_nil_iff]
      intro t ht
      rw [hall t ht]
      simp
    simp [repeatAverage, repeatMin, repeatMax, hv]
  · intro ⟨t, ht, htne⟩
    have htpos : 0 < t := lt_of_le_of_ne (hpos t ht) (Ne.symm htne)
    have hmem : t ∈ validTimes times := by
      rw [validTimes, List.mem_filter]
      exact ⟨ht, by simpa using htpos⟩
    obtain ⟨x, xs, hv⟩ : ∃ x xs, validTimes times = x :: xs := by
      cases hvt : validTimes times with
      | nil => rw [hvt] at hmem; simp at hmem
      | cons x xs => exact ⟨x, xs, rfl⟩
    have hlen : (validTimes times).length > 0 := by rw [hv]; simp
    have hlenq : (0 : ℚ) < ((validTimes times).length : ℚ) := by
      exact_mod_cast hlen
    constructor
    · rw [repeatMin, repeatAverage, if_pos hlen, if_pos hlen]
      rw [le_div_iff₀ hlenq]
      have := foldl_min_mul_le xs x
      rw [hv]
      show (xs.foldl min x) * ((x :: xs).length : ℚ) ≤ (x :: xs).sum
      have hc : ((x :: xs).length : ℚ) = 1 + (xs.length : ℚ) := by
        push_cast [List.length_cons]
        ring
      rw [hc, List.sum_cons]
      linarith
    · rw [repeatMax, repeatAverage, if_pos hlen, if_pos hlen]
      rw [div_le_iff₀ hlenq]
      have := le_foldl_max_mul xs x
      rw [hv]
      show (x :: xs).sum ≤ (xs.foldl max x) * ((x :: xs).length : ℚ)
      have hc : ((x :: xs).length : ℚ) = 1 + (xs.length : ℚ) := by
        push_cast [List.length_cons]
        ring
      rw [hc, List.sum_cons]
      linarith

/-- Witness for C7 on the concrete duration list `[0, 3, 1]`. -/
theorem repeat_stats_spec_witness :
    repeatMin [0, 3, 1] ≤ repeatAverage [0, 3, 1] ∧
      repeatAverage [0, 3, 1] ≤ repeatMax [0, 3, 1] := by
  have h := repeat_stats_spec [0, 3, 1] (by norm_num)
  exact h.2 ⟨3, by norm_num, by norm_num⟩

/-- `repeatCount` from the repeated-run handler. -/
def repeatCount : Nat := 10

/-- The `times` array one cell of the repeated-run handler accumulates:
`outs` lists the outcome of each `await runTest(db, operation)` call in
iteration order; a resolved call contributes its `timeTaken`, a rejected
call is caught by the loop's `catch` and contributes `0`. -/
def iterationTimes (outs : List (Except String TestResult)) : List ℚ :=
  outs.map (fun o => match o with
    | .ok r => (r.timeTaken : ℚ)
    | .error _ => 0)

/-- Claim C8: with repeat count 10, the returned `times` sequence has length
exactly 10, a rejected iteration is marked by a zero entry at its position,
and when every iteration rejects all 10 entries are 0 and
`average = min = max = 0`. -/
theorem repeat_cell_spec (outs : List (Except String TestResult))
    (h10 : outs.length = repeatCount) :
    (iterationTimes outs).length = 10 ∧
    (∀ i : Fin outs.length, ∀ e, outs.get i = .error e →
      (iterationTimes outs).get
        (Fin.cast (by simp [iterationTimes]) i) = 0) ∧
    ((∀ o ∈ outs, ∃ e, o = .error e) →
      iterationTimes outs = List.replicate 10 0 ∧
      repeatAverage (iterationTimes outs) = 0 ∧
      repeatMin (iterationTimes outs) = 0 ∧
      repeatMax (iterationTimes outs) = 0) := by
  refine ⟨?_, ?_, ?_⟩
  · simp [iterationTimes, h10, repeatCount]
  · intro i e he
    simp only [List.get_eq_getElem] at he ⊢
    simp only [iterationTimes, Fin.coe_cast, List.getElem_map]
    rw [he]
  · intro hall
    have htimes : iterationTimes outs = List.replicate 10 0 := by
      rw [List.eq_replicate_iff]
      constructor
      · simp [iterationTimes, h10, repeatCount]
      · intro b hb
        simp only [iterationTimes, List.mem_map] at hb
        obtain ⟨o, ho, hbo⟩ := hb
        obtain ⟨e, rfl⟩ := hall o ho
        exact hbo.symm
    have hv : validTimes (List.replicate 10 (0 : ℚ)) = [] := by
      simp [validTimes, List.filter_replicate]
    rw [htimes]
    refine ⟨rfl, ?_, ?_, ?_⟩ <;>
      simp only [repeatAverage, repeatMin, repeatMax, hv] <;> norm_num

/-- Witness for C8 on ten rejected iterations. -/
theorem repeat_cell_spec_witness :
    iterationTimes (List.replicate 10 (Except.error "boom")) = List.replicate 10 0 ∧
    repeatAverage (iterationTimes (List.replicate 10 (Except.error "boom"))) = 0 ∧
    repeatMin (iterationTimes (List.replicate 10 (Except.error "boom"))) = 0 ∧
    repeatMax (iterationTimes (List.replicate 10 (Except.error "boom"))) = 0 := by
  have h := repeat_cell_spec (List.replicate 10 (Except.error "boom")) (by rfl)
  exact h.2.2 (fun o ho => ⟨"boom", List.eq_of_mem_replicate ho⟩)

/-- `Math.round(q)` for nonnegative arguments (round half toward plus
infinity), as used on the progress percentages. -/
def jsRound (q : ℚ) : Int := ⌊q + 1 / 2⌋

/-- The `progress` value the streamed full-matrix handler computes when
`currentTest = k` out of `totalTests = total`:
`Math.round((currentTest / totalTests) * 100)`. -/
def progressAt (k total : Nat) : Int := jsRound (((k : ℚ) / (total : ℚ)) * 100)

/-- The status values of `TestStatus` from `lib/types.ts`. -/
inductive StreamStatus where
  | starting
  | running
  | verifying
  | completed
  | error
deriving DecidableEq

/-- A status event of the streamed full-matrix handler (`TestStatus` from
`lib/types.ts`); the human-readable Turkish `message` strings are
presentation-only and not modelled. -/
structure StreamEvent where
  currentDatabase : String
  currentOperation : OperationType
  status : StreamStatus
  progress : Int
  recordCount : Option Nat
deriving DecidableEq

/-- The events one cell emits, in order: `starting` and `running` always,
then `verifying` and `completed` when `await runTest` resolves, or `error`
when it rejects.  All of them carry the same `progress`, computed from the
1-based index `k` of the *current* cell — `currentTest++` runs before the
cell does. -/
def cellEvents (k : Nat) (db : DatabaseType) (op : OperationType)
    (outcome : Except String TestResult) : List StreamEvent :=
  let p := progressAt k 9
  let d := dbLabel db
  { currentDatabase := d, currentOperation := op, status := .starting,
    progress := p, recordCount := none } ::
  { currentDatabase := d, currentOperation := op, status := .running,
    progress := p,
    recordCount := some (if op = .write then 10000 else 1000) } ::
  (match outcome with
   | .ok _ =>
     [{ currentDatabase := d, currentOperation := op, status := .verifying,
        progress := p, recordCount := none },
      { currentDatabase := d, currentOperation := op, status := .completed,
        progress := p, recordCount := none }]
   | .error _ =>
     [{ currentDatabase := d, currentOperation := op, status := .error,
        progress := p, recordCount := none }])

/-- The cell order of the handler's nested loops (outer: databases, inner:
operations). -/
def dbOpPairs : List (DatabaseType × OperationType) :=
  [(.cassandra, .write), (.cassandra, .read), (.cassandra, .update),
   (.mongo, .write), (.mongo, .read), (.mongo, .update),
   (.cockroach, .write), (.cockroach, .read), (.cockroach, .update)]

/-- The status-event sequence from cell number `k` on. -/
def streamEventsFrom (k : Nat) :
    List ((DatabaseType × OperationType) × Except String TestResult) →
      List StreamEvent
  | [] => []
  | (cell, o) :: rest =>
    cellEvents k cell.1 cell.2 o ++ streamEventsFrom (k + 1) rest

/-- All status events of one streamed full-matrix run; `outcomes` gives the
outcome of each cell's `await runTest` call. -/
def streamEvents
    (outcomes : DatabaseType → OperationType → Except String TestResult) :
    List StreamEvent :=
  streamEventsFrom 1 (dbOpPairs.map (fun c => (c, outcomes c.1 c.2)))

/-- Number of status events a cell emits: 4 on success, 3 on failure. -/
def cellEventCount : Except String TestResult → Nat
  | .ok _ => 4
  | .error _ => 3

/-- The progress column of the stream, as blocks: the events of the cell at
1-based index `k` all carry `progressAt k 9`. -/
def progBlocks (k : Nat) :
    List ((DatabaseType × OperationType) × Except String TestResult) → List Int
  | [] => []
  | (_, o) :: rest =>
    List.replicate (cellEventCount o) (progressAt k 9) ++ progBlocks (k + 1) rest

lemma cellEvents_map_progress (k : Nat) (db : DatabaseType) (op : OperationType)
    (o : Except String TestResult) :
    (cellEvents k db op o).map (·.progress)
      = List.replicate (cellEventCount o) (progressAt k 9) := by
  cases o <;> rfl

lemma streamEventsFrom_map_progress :
    ∀ (l : List ((DatabaseType × OperationType) × Except String TestResult))
      (k : Nat),
      (streamEventsFrom k l).map (·.progress) = progBlocks k l := by
  intro l
  induction l with
  | nil => intro k; rfl
  | cons x rest ih =>
    intro k
    obtain ⟨cell, o⟩ := x
    show ((cellEvents k cell.1 cell.2 o ++ streamEventsFrom (k + 1) rest).map
      (·.progress)) = _
    rw [List.map_append, cellEvents_map_progress, ih (k + 1)]
    rfl

lemma progressAt_mono {a b : Nat} (h : a ≤ b) : progressAt a 9 ≤ progressAt b 9 := by
  unfold progressAt jsRound
  apply Int.floor_le_floor
  have hab : (a : ℚ) ≤ (b : ℚ) := by exact_mod_cast h
  have hdiv : (a : ℚ) / 9 ≤ (b : ℚ) / 9 := by gcongr
  nlinarith

lemma progressAt_nonneg (k : Nat) : 0 ≤ progressAt k 9 := by
  unfold progressAt jsRound
  rw [Int.le_floor]
  have : (0 : ℚ) ≤ ((k : ℚ) / 9) * 100 := by positivity
  push_cast
  linarith

lemma progressAt_le_100 {k : Nat} (h : k ≤ 9) : progressAt k 9 ≤ 100 := by
  have hlt : progressAt k 9 < 101 := by
    unfold progressAt jsRound
    rw [Int.floor_lt]
    have hk : (k : ℚ) ≤ 9 := by exact_mod_cast h
    have h2 : ((k : ℚ) / 9) * 100 ≤ 100 := by
      rw [div_mul_eq_mul_div, div_le_iff₀ (by norm_num : (0:ℚ) < 9)]
      nlinarith
    push_cast
    linarith
  omega

lemma progBlocks_lb :
    ∀ (l : List ((DatabaseType × OperationType) × Except String TestResult))
      (k : Nat), ∀ x ∈ progBlocks k l, progressAt k 9 ≤ x := by
  intro l
  induction l with
  | nil => intro k x hx; simp [progBlocks] at hx
  | cons y rest ih =>
    intro k x hx
    obtain ⟨cell, o⟩ := y
    simp only [progBlocks, List.mem_append] at hx
    cases hx with
    | inl h => rw [List.eq_of_mem_replicate h]
    | inr h =>
      exact le_trans (progressAt_mono (Nat.le_succ k)) (ih (k + 1) x h)

lemma progBlocks_ub :
    ∀ (l : List ((DatabaseType × OperationType) × Except String TestResult))
      (k : Nat) (b : Int),
      (∀ j, k ≤ j → j < k + l.length → progressAt j 9 ≤ b) →
      ∀ x ∈ progBlocks k l, x ≤ b := by
  intro l
  induction l with
  | nil => intro k b _ x hx; simp [progBlocks] at hx
  | cons y rest ih =>
    intro k b hb x hx
    obtain ⟨cell, o⟩ := y
    simp only [progBlocks, List.mem_append] at hx
    cases hx with
    | inl h =>
      rw [List.eq_of_mem_replicate h]
      exact hb k (le_refl k) (by simp)
    | inr h =>
      refine ih (k + 1) b ?_ x h
      intro j hj hj'
      refine hb j (by omega) ?_
      simp only [List.length_cons]
      omega

lemma chain_const_append (a : Int) :
    ∀ (c : Nat) (rest : List Int), List.Chain' (· ≤ ·) rest →
      (∀ y ∈ rest.head?, a ≤ y) →
      List.Chain' (· ≤ ·) (List.replicate c a ++ rest) := by
  intro c
  induction c with
  | zero => intro rest hc _; simpa using hc
  | succ c ih =>
    intro rest hc hhead
    rw [List.replicate_succ, List.cons_append, List.chain'_cons']
    refine ⟨?_, ih rest hc hhead⟩
    intro y hy
    cases c with
    | zero =>
      simp only [List.replicate, List.nil_append] at hy
      exact hhead y hy
    | succ c =>
      rw [List.replicate_succ, List.cons_append, List.head?_cons] at hy
      cases hy
      exact le_refl a

lemma progBlocks_chain :
    ∀ (l : List ((DatabaseType × OperationType) × Except String TestResult))
      (k : Nat), List.Chain' (· ≤ ·) (progBlocks k l) := by
  intro l
  induction l with
  | nil => intro k; simp [progBlocks]
  | cons y rest ih =>
    intro k
    obtain ⟨cell, o⟩ := y
    show List.Chain' (· ≤ ·)
      (List.replicate (cellEventCount o) (progressAt k 9) ++ progBlocks (k + 1) rest)
    refine chain_const_append _ _ _ (ih (k + 1)) ?_
    intro y hy
    have hmem : y ∈ progBlocks (k + 1) rest := by
      cases hpb : progBlocks (k + 1) rest with
      | nil => rw [hpb] at hy; cases hy
      | cons z zs =>
        rw [hpb] at hy
        rw [List.head?_cons] at hy
        cases hy
        simp [hpb]
    exact le_trans (progressAt_mono (Nat.le_succ k)) (progBlocks_lb rest (k + 1) y hmem)

/-- Claim C9 (amended): in the streamed full-matrix run, every status event
of the cell at 1-based index `k` — including its `starting` event — carries
`progress = round(100 × k / 9)` where `k` counts the *current* cell
(`currentTest` is incremented before the cell runs), constant across that
cell's events; the progress values are integers in 0–100 and monotonically
non-decreasing over the event sequence. -/
theorem stream_progress_spec
    (outcomes : DatabaseType → OperationType → Except String TestResult) :
    (streamEvents outcomes).map (·.progress)
      = progBlocks 1 (dbOpPairs.map (fun c => (c, outcomes c.1 c.2))) ∧
    List.Chain' (· ≤ ·) ((streamEvents outcomes).map (·.progress)) ∧
    (∀ e ∈ streamEvents outcomes, 0 ≤ e.progress ∧ e.progress ≤ 100) := by
  have hmap : (streamEvents outcomes).map (·.progress)
      = progBlocks 1 (dbOpPairs.map (fun c => (c, outcomes c.1 c.2))) :=
    streamEventsFrom_map_progress _ 1
  refine ⟨hmap, ?_, ?_⟩
  · rw [hmap]
    exact progBlocks_chain _ 1
  · intro e he
    have hp : e.progress ∈ progBlocks 1 (dbOpPairs.map (fun c => (c, outcomes c.1 c.2))) := by
      rw [← hmap]
      exact List.mem_map_of_mem (·.progress) he
    constructor
    · exact le_trans (progressAt_nonneg 1) (progBlocks_lb _ 1 e.progress hp)
    · refine progBlocks_ub _ 1 100 ?_ e.progress hp
      intro j hj hj'
      refine progressAt_le_100 ?_
      simp only [List.length_map] at hj'
      have : (dbOpPairs).length = 9 := by rfl
      omega

/-- Counterexample for C9 as stated: at the moment the very first event
(`starting`, first cell) is emitted, zero cells have completed, so the
claimed formula gives `round(100 × 0 / 9) = 0`; the handler nevertheless
emits `progress = 11 = round(100 × 1 / 9)`, because `currentTest` is
incremented before the cell runs. -/
lemma progressAt_one : progressAt 1 9 = 11 := by
  unfold progressAt jsRound
  push_cast
  rw [show ((1 : ℚ) / 9) * 100 + 1 / 2 = 209 / 18 by norm_num]
  rw [Int.floor_eq_iff]
  constructor <;> norm_num

theorem stream_progress_cex :
    ((streamEvents (fun _ _ => Except.error "x")).head?).map (·.progress)
      = some 11 ∧
    jsRound (((0 : ℚ) / 9) * 100) = 0 := by
  constructor
  · show some (progressAt 1 9) = some 11
    rw [progressAt_one]
  · unfold jsRound
    rw [show ((0 : ℚ) / 9) * 100 + 1 / 2 = 1 / 2 by norm_num]
    rw [Int.floor_eq_iff]
    constructor <;> norm_num

/-- Witness for C9 (amended) at a concrete outcome assignment. -/
theorem stream_progress_spec_witness :
    List.Chain' (· ≤ ·)
      ((streamEvents (fun _ _ => Except.error "x")).map (·.progress)) ∧
    (streamEvents (fun _ _ => Except.error "x")).map (·.progress)
      = progBlocks 1 (dbOpPairs.map
          (fun c => (c, (fun _ _ => Except.error "x") c.1 c.2))) := by
  have h := stream_progress_spec (fun _ _ => Except.error "x")
  exact ⟨h.2.1, h.1⟩

/-- The results array accumulated by `pages/api/test/all.ts`: one entry per
cell, the `runTest` result when the call resolves, or the handler's own
error result (raw backend id, zero time and count) when it rejects — no
cell is ever dropped. -/
def allTestsResults
    (outcomes : DatabaseType → OperationType → Except String TestResult) :
    List TestResult :=
  dbOpPairs.map (fun c =>
    match outcomes c.1 c.2 with
    | .ok r => r
    | .error msg =>
      { database := dbTypeStr c.1, operation := c.2, timeTaken := 0,
        recordCount := 0, dataIntegrity := false, error := some msg })

/-- JS truthiness of the optional `error` field (`r.error` is falsy when
absent or the empty string). -/
def errTruthy : Option String → Bool
  | none => false
  | some s => s != ""

/-- The summary block of `pages/api/test/all.ts`. -/
structure AllSummary where
  totalTests : Nat
  successfulTests : Nat
  failedTests : Nat
  totalTime : Int
deriving DecidableEq

/-- `summary` as computed by `pages/api/test/all.ts`:
`successfulTests` counts `!r.error && r.dataIntegrity`, `failedTests`
counts `r.error || !r.dataIntegrity`. -/
def allTestsSummary (results : List TestResult) : AllSummary :=
  { totalTests := results.length
    successfulTests :=
      (results.filter (fun r => !(errTruthy r.error) && r.dataIntegrity)).length
    failedTests :=
      (results.filter (fun r => errTruthy r.error || !r.dataIntegrity)).length
    totalTime := (results.map (·.timeTaken)).sum }

lemma filter_length_compl {α : Type} (p q : α → Bool)
    (hpq : ∀ a, q a = !(p a)) :
    ∀ l : List α, (l.filter p).length + (l.filter q).length = l.length := by
  intro l
  induction l with
  | nil => rfl
  | cons x xs ih =>
    cases hx : p x with
    | true =>
      rw [List.filter_cons_of_pos hx,
        List.filter_cons_of_neg (by simp [hpq x, hx])]
      simp only [List.length_cons]
      omega
    | false =>
      rw [List.filter_cons_of_neg (by simp [hx]),
        List.filter_cons_of_pos (by simp [hpq x, hx])]
      simp only [List.length_cons]
      omega

/-- Claim C10: the buffered full-matrix run returns exactly 9 TestResults
(one per cell, none dropped even on failure) with `summary.totalTests = 9`
and `successfulTests + failedTests = totalTests`; a test counts as
successful exactly when it has no error and `dataIntegrity = true` (given
that caught failure messages are nonempty strings, as JS `Error.message`s
from the drivers are — the source tests `!r.error`, which would also treat
an empty-string message as absent). -/
theorem all_tests_spec
    (outcomes : DatabaseType → OperationType → Except String TestResult)
    (hmsg : ∀ db op r m, outcomes db op = .ok r → r.error = some m → m ≠ "") :
    (allTestsResults outcomes).length = 9 ∧
    (allTestsSummary (allTestsResults outcomes)).totalTests = 9 ∧
    (allTestsSummary (allTestsResults outcomes)).successfulTests
      + (allTestsSummary (allTestsResults outcomes)).failedTests = 9 ∧
    (∀ r ∈ allTestsResults outcomes,
      ((!(errTruthy r.error) && r.dataIntegrity) = true
        ↔ r.error = none ∧ r.dataIntegrity = true)) := by
  have hlen : (allTestsResults outcomes).length = 9 := by
    simp [allTestsResults, dbOpPairs]
  refine ⟨hlen, hlen, ?_, ?_⟩
  · show ((allTestsResults outcomes).filter _).length
        + ((allTestsResults outcomes).filter _).length = 9
    rw [filter_length_compl
      (fun r => !(errTruthy r.error) && r.dataIntegrity)
      (fun r => errTruthy r.error || !r.dataIntegrity)
      (fun r => by cases herr : errTruthy r.error <;> cases hdi : r.dataIntegrity <;> simp [herr, hdi])
      (allTestsResults outcomes)]
    exact hlen
  · intro r hr
    constructor
    · intro h
      rw [Bool.and_eq_true] at h
      refine ⟨?_, h.2⟩
      cases he : r.error with
      | none => rfl
      | some m =>
        exfalso
        simp only [allTestsResults, List.mem_map] at hr
        obtain ⟨c, _, hc⟩ := hr
        cases ho : outcomes c.1 c.2 with
        | ok res =>
          rw [ho] at hc
          have hc2 : res = r := hc
          subst hc2
          have hm := hmsg c.1 c.2 res m ho he
          have h1 := h.1
          rw [he] at h1
          simp [errTruthy] at h1
          exact hm h1
        | error msg =>
          rw [ho] at hc
          have hdi := h.2
          rw [← hc] at hdi
          simp at hdi
    · intro ⟨he, hdi⟩
      rw [he, hdi]
      rfl

/-- Witness for C10 on a run where every cell's `runTest` call rejects. -/
theorem all_tests_spec_witness :
    (allTestsResults (fun _ _ => Except.error "boom")).length = 9 ∧
    (allTestsSummary (allTestsResults (fun _ _ => Except.error "boom"))).totalTests = 9 ∧
    (allTestsSummary (allTestsResults (fun _ _ => Except.error "boom"))).successfulTests
      + (allTestsSummary (allTestsResults (fun _ _ => Except.error "boom"))).failedTests
      = 9 := by
  have h := all_tests_spec (fun _ _ => Except.error "boom")
    (fun db op r m hr => by cases hr)
  exact ⟨h.1, h.2.1, h.2.2.1⟩
